import Mathlib

/-!
Shallow embedding of the two GNOME Shell gesture recognizers
(`src/shell-dnd-start-gesture.c` and `src/shell-edge-drag-gesture.c`).

The recognizers are specializations of an external multi-point gesture
framework (ClutterGesture).  The framework is modelled as the environment:

* `GestureState` is the framework's state enum.  Transition requests from
  the recognizer are validated by the framework: terminal states
  (Cancelled / Completed) are absorbing, every other request is applied,
  and the recognizer's `state_changed` class handler runs synchronously
  on the applied transition.
* Active points are a list of per-point records (begin coordinates,
  current coordinates, originating device and event times).  The
  framework appends a point before dispatching `point_began`, updates a
  point's current data before dispatching `point_moved`, and removes a
  point after dispatching `point_ended`.  Once a gesture is in a terminal
  state the framework stops dispatching point callbacks to it for the
  rest of the sequence (a fresh sequence starts a new run from the
  initial state); point bookkeeping continues silently.
* Integer times are guint32 values; subtraction wraps modulo 2^32.
* Coordinates are modelled as integers (the C code compares floats
  against integer thresholds; the threshold logic itself is exact).
* `graphene_point_distance` returns the absolute per-axis components of
  the difference of two points in its two out-parameters; that is what
  both recognizers consume.
-/

/-- ClutterGestureState as used by the recognizers. -/
inductive GestureState where
  | possible
  | recognizing
  | cancelled
  | completed
deriving DecidableEq, Repr

/-- Cancelled and Completed are the terminal states. -/
def GestureState.isTerminal : GestureState → Bool
  | .cancelled => true
  | .completed => true
  | _ => false

/-- Absolute screen coordinates of a point (graphene_point_t, idealized to ℤ). -/
structure Coords where
  x : Int
  y : Int
deriving DecidableEq, Repr

instance : Inhabited Coords := ⟨⟨0, 0⟩⟩

/-- ClutterInputDeviceType, restricted to the cases the code distinguishes. -/
inductive DeviceType where
  | pointerDevice
  | touchpadDevice
  | touchscreenDevice
  | otherDevice
deriving DecidableEq, Repr

/-- guint32 wrap-around subtraction, as in `t2 - t1` on guint32 values. -/
def u32sub (a b : Nat) : Nat :=
  (a + 4294967296 - b % 4294967296) % 4294967296

namespace DndStart

/-- An owned ClutterEvent copy: the fields the recognizer reads from it. -/
structure EventCopy where
  device : DeviceType
  time : Nat
deriving DecidableEq, Repr

/-- A gesture point as tracked by the framework: begin and current
coordinates, the source device, and the timestamps of the begin event and
of the latest event. -/
structure GesturePoint where
  beginCoords : Coords
  coords : Coords
  device : DeviceType
  beginTime : Nat
  latestTime : Nat
deriving DecidableEq, Repr

/-- Host-service environment and configurable properties of the
drag-start recognizer: the settings drag threshold, the theme-context
scale factor, manual mode, and the timeout threshold (ms). -/
structure Config where
  dragThreshold : Int
  scaleFactor : Int
  manualMode : Bool
  timeoutThresholdMs : Nat
deriving DecidableEq, Repr

/-- Framework plus private state of a ShellDndStartGesture. -/
structure State where
  gstate : GestureState
  points : List GesturePoint
  dragThresholdIgnored : Bool
  pointBeginEvent : Option EventCopy
  dragTriggeringEvent : Option EventCopy
deriving DecidableEq, Repr

/-- The recognizer's state_changed handler: on a transition to Cancelled
or Completed, both owned event copies are freed and cleared. -/
def state_changed (s : State) (newState : GestureState) : State :=
  if newState = .cancelled ∨ newState = .completed then
    { s with dragTriggeringEvent := none, pointBeginEvent := none }
  else
    s

/-- clutter_gesture_set_state as seen by this recognizer: terminal states
absorb further requests; otherwise the request is applied and the
state_changed handler runs synchronously. -/
def setState (s : State) (req : GestureState) : State :=
  if s.gstate.isTerminal then s
  else state_changed { s with gstate := req } req

/-- shell_dnd_start_gesture_start_drag: no-op unless exactly one point is
active; if the state is still Possible, copy the given event (if any) as
the triggering event and transition to Completed. -/
def shell_dnd_start_gesture_start_drag (s : State) (startEvent : Option EventCopy) : State :=
  if s.points.length ≠ 1 then s
  else if s.gstate = .possible then
    let s1 :=
      match startEvent with
      | some e => { s with dragTriggeringEvent := some e }
      | none => s
    setState s1 .completed
  else s

/-- maybe_start_drag: no-op once the ignore flag is set.  Otherwise
compare per-axis absolute displacement against the scaled drag threshold;
on crossing, pointer/touchpad devices (or an elapsed time above the
timeout threshold) start the drag with the point's latest event, and
otherwise the ignore flag is set. -/
def maybe_start_drag (cfg : Config) (s : State) (p : GesturePoint) : State :=
  if s.dragThresholdIgnored then s
  else
    let dragThreshold := cfg.dragThreshold * cfg.scaleFactor
    if |p.coords.x - p.beginCoords.x| > dragThreshold ∨
       |p.coords.y - p.beginCoords.y| > dragThreshold then
      let isPointerOrTouchpad :=
        p.device = .pointerDevice ∨ p.device = .touchpadDevice
      let ellapsedTime :=
        u32sub p.latestTime
          (match s.pointBeginEvent with
           | some e => e.time
           | none => 0)
      if isPointerOrTouchpad ∨ ellapsedTime > cfg.timeoutThresholdMs then
        shell_dnd_start_gesture_start_drag s (some ⟨p.device, p.latestTime⟩)
      else
        { s with dragThresholdIgnored := true }
    else s

/-- point_began handler.  The framework has already appended the point;
`p` is that point.  More than one active point cancels outright;
otherwise the begin event is copied, the ignore flag reset, and — unless
in manual mode or out of the Possible state — the threshold check runs. -/
def point_began (cfg : Config) (s : State) (p : GesturePoint) : State :=
  if s.points.length > 1 then setState s .cancelled
  else
    let s1 := { s with
      pointBeginEvent := some ⟨p.device, p.beginTime⟩,
      dragThresholdIgnored := false }
    if cfg.manualMode = false ∧ s1.gstate = .possible then
      maybe_start_drag cfg s1 p
    else s1

/-- point_moved handler: re-run the threshold check while not in manual
mode and still in Possible. -/
def point_moved (cfg : Config) (s : State) (p : GesturePoint) : State :=
  if cfg.manualMode = false ∧ s.gstate = .possible then
    maybe_start_drag cfg s p
  else s

/-- point_ended handler: cancelled if still in Possible when the last
point is removed (the point is still counted during the callback). -/
def point_ended (s : State) : State :=
  if s.gstate = .possible ∧ s.points.length = 1 then setState s .cancelled
  else s

/-- Inputs driving a run of the recognizer: point lifecycle events
dispatched by the framework, plus external start_drag calls. -/
inductive Input where
  | began (device : DeviceType) (c : Coords) (t : Nat)
  | moved (i : Nat) (c : Coords) (t : Nat)
  | ended (i : Nat)
  | startDrag (ev : Option EventCopy)
deriving DecidableEq, Repr

/-- Whether an input is a point-moved dispatch. -/
def Input.isMoved : Input → Bool
  | .moved _ _ _ => true
  | _ => false

/-- One framework dispatch step.  Point callbacks are only delivered
while the gesture is non-terminal; point bookkeeping happens regardless
(a terminated gesture stops receiving events for the rest of the
sequence). -/
def step (cfg : Config) (s : State) : Input → State
  | .began d c t =>
      if s.gstate.isTerminal then s
      else
        let p : GesturePoint := ⟨c, c, d, t, t⟩
        point_began cfg { s with points := s.points ++ [p] } p
  | .moved i c t =>
      if s.gstate.isTerminal then s
      else
        match s.points[i]? with
        | none => s
        | some p0 =>
            let p := { p0 with coords := c, latestTime := t }
            point_moved cfg { s with points := s.points.set i p } p
  | .ended i =>
      if i < s.points.length then
        let s1 := if s.gstate.isTerminal then s else point_ended s
        { s1 with points := s1.points.eraseIdx i }
      else s
  | .startDrag ev => shell_dnd_start_gesture_start_drag s ev

/-- A run: fold the step function over an input list. -/
def run (cfg : Config) (s : State) (inputs : List Input) : State :=
  inputs.foldl (step cfg) s

/-- The initial state of a fresh point sequence. -/
def init : State :=
  { gstate := .possible
    points := []
    dragThresholdIgnored := false
    pointBeginEvent := none
    dragTriggeringEvent := none }

/-- Accessor shell_dnd_start_gesture_get_point_begin_event. -/
def shell_dnd_start_gesture_get_point_begin_event (s : State) : Option EventCopy :=
  s.pointBeginEvent

/-- Accessor shell_dnd_start_gesture_get_drag_triggering_event. -/
def shell_dnd_start_gesture_get_drag_triggering_event (s : State) : Option EventCopy :=
  s.dragTriggeringEvent

end DndStart

namespace EdgeDrag

/-- StSide, in its source declaration order (Top = 0, Right = 1,
Bottom = 2, Left = 3). -/
inductive StSide where
  | top
  | right
  | bottom
  | left
deriving DecidableEq, Repr

/-- The integer value of an StSide (its position in the C enum). -/
def StSide.toInt : StSide → Int
  | .top => 0
  | .right => 1
  | .bottom => 2
  | .left => 3

/-- Monitor geometry (MtkRectangle). -/
structure MRect where
  x : Int
  y : Int
  width : Int
  height : Int
deriving DecidableEq, Repr

/-- The display's monitor lookup: geometry of the monitor containing the
given coordinates, or none (get_monitor_for_coords returning FALSE). -/
def Monitors := Coords → Option MRect

/-- A gesture point as tracked by the framework (the edge-drag recognizer
only reads coordinates). -/
structure GesturePoint where
  beginCoords : Coords
  coords : Coords
deriving DecidableEq, Repr

instance : Inhabited GesturePoint := ⟨⟨default, default⟩⟩

/-- Framework plus private state of a ShellEdgeDragGesture.  The active
cancel timer handle (cancel_timeout_id, 0 when none) is modelled by the
boolean `cancelTimeoutArmed`; `emissions` is the log of values carried by
::progress signal emissions so far, in order. -/
structure State where
  gstate : GestureState
  points : List GesturePoint
  side : StSide
  cancelTimeoutPoint : Nat
  cancelTimeoutArmed : Bool
  emissions : List Int
deriving DecidableEq, Repr

/-- is_near_monitor_edge: the point's current coordinates are within the
EDGE_THRESHOLD (20px) band of the configured side of their monitor.  A
failed monitor lookup is the g_assert_not_reached fallback (FALSE). -/
def is_near_monitor_edge (mon : Monitors) (side : StSide) (c : Coords) : Bool :=
  match mon c with
  | none => false
  | some g =>
      match side with
      | .left => decide (c.x < g.x + 20)
      | .right => decide (c.x > g.x + g.width - 20)
      | .top => decide (c.y < g.y + 20)
      | .bottom => decide (c.y > g.y + g.height - 20)

/-- exceeds_cancel_threshold: the absolute displacement since begin on
the axis relevant to the configured side exceeds CANCEL_THRESHOLD
(100px).  graphene_point_distance yields the absolute per-axis
components. -/
def exceeds_cancel_threshold (side : StSide) (b c : Coords) : Bool :=
  match side with
  | .left | .right => decide (|c.x - b.x| > 100)
  | .top | .bottom => decide (|c.y - b.y| > 100)

/-- passes_distance_needed: the current coordinate has moved past the
begin monitor's configured edge by at least DRAG_DISTANCE (80px) inward.
The monitor is looked up at the begin coordinates. -/
def passes_distance_needed (mon : Monitors) (side : StSide) (b c : Coords) : Bool :=
  match mon b with
  | none => false
  | some g =>
      match side with
      | .left => decide (c.x > g.x + 80)
      | .right => decide (c.x < g.x + g.width - 80)
      | .top => decide (c.y > g.y + 80)
      | .bottom => decide (c.y < g.y + g.height - 80)

/-- The absolute displacement between two coordinate pairs on the axis
relevant to the configured side: the C code fetches both absolute
per-axis distances from graphene_point_distance and switches on the side
to select distance_x (Left/Right) or distance_y (Top/Bottom). -/
def axisDisp (side : StSide) (b c : Coords) : Int :=
  match side with
  | .left | .right => |c.x - b.x|
  | .top | .bottom => |c.y - b.y|

/-- The recognizer's state_changed handler: on a transition to Cancelled
or Completed, any pending cancel timer is removed and its handle
cleared. -/
def state_changed (s : State) (newState : GestureState) : State :=
  if newState = .cancelled ∨ newState = .completed then
    { s with cancelTimeoutArmed := false }
  else
    s

/-- clutter_gesture_set_state as seen by this recognizer: terminal states
absorb further requests; otherwise the request is applied and the
state_changed handler runs synchronously. -/
def setState (s : State) (req : GestureState) : State :=
  if s.gstate.isTerminal then s
  else state_changed { s with gstate := req } req

/-- on_cancel_timeout: if the watched point is still near the edge,
cancel the gesture; always clear the timer handle and remove the source
(one-shot). -/
def on_cancel_timeout (mon : Monitors) (s : State) : State :=
  let c := (s.points[s.cancelTimeoutPoint]?.getD default).coords
  let s1 :=
    if is_near_monitor_edge mon s.side c then setState s .cancelled else s
  { s1 with cancelTimeoutArmed := false }

/-- point_began handler.  The framework has already appended the point;
`i` is its index.  A second active point, or a begin away from the
configured edge, cancels immediately; otherwise the cancel timer is
armed on this point. -/
def point_began (mon : Monitors) (s : State) (i : Nat) : State :=
  let c := (s.points[i]?.getD default).coords
  if s.points.length > 1 ∨ is_near_monitor_edge mon s.side c = false then
    setState s .cancelled
  else
    { s with cancelTimeoutPoint := i, cancelTimeoutArmed := true }

/-- point_moved handler: cancel on overshoot; promote Possible to
Recognizing when the point leaves the edge band; while Recognizing, emit
the per-axis absolute displacement as ::progress and complete once the
needed distance is passed. -/
def point_moved (mon : Monitors) (s : State) (i : Nat) : State :=
  let p := s.points[i]?.getD default
  if exceeds_cancel_threshold s.side p.beginCoords p.coords then
    setState s .cancelled
  else
    let s1 :=
      if s.gstate = .possible ∧
         is_near_monitor_edge mon s.side p.coords = false then
        setState s .recognizing
      else s
    if s1.gstate = .recognizing then
      let d : Int := axisDisp s1.side p.beginCoords p.coords
      let s2 := { s1 with emissions := s1.emissions ++ [d] }
      if passes_distance_needed mon s2.side p.beginCoords p.coords then
        setState s2 .completed
      else s2
    else s1

/-- point_ended handler: unconditionally cancels. -/
def point_ended (s : State) : State :=
  setState s .cancelled

/-- Inputs driving a run: point lifecycle dispatches plus the firing of
an armed cancel timer (the GLib source only fires while its handle is
live). -/
inductive Input where
  | began (c : Coords)
  | moved (i : Nat) (c : Coords)
  | ended (i : Nat)
  | timerFired
deriving DecidableEq, Repr

/-- One framework dispatch step; point callbacks are only delivered while
the gesture is non-terminal, the timer callback only while its source is
live. -/
def step (mon : Monitors) (s : State) : Input → State
  | .began c =>
      if s.gstate.isTerminal then s
      else point_began mon { s with points := s.points ++ [⟨c, c⟩] } s.points.length
  | .moved i c =>
      if s.gstate.isTerminal then s
      else
        match s.points[i]? with
        | none => s
        | some p =>
            point_moved mon { s with points := s.points.set i { p with coords := c } } i
  | .ended i =>
      if i < s.points.length then
        let s1 := if s.gstate.isTerminal then s else point_ended s
        { s1 with points := s1.points.eraseIdx i }
      else s
  | .timerFired =>
      if s.cancelTimeoutArmed then on_cancel_timeout mon s else s

/-- A run: fold the step function over an input list. -/
def run (mon : Monitors) (s : State) (inputs : List Input) : State :=
  inputs.foldl (step mon) s

/-- The initial state of a fresh point sequence with the configured
side. -/
def init (side : StSide) : State :=
  { gstate := .possible
    points := []
    side := side
    cancelTimeoutPoint := 0
    cancelTimeoutArmed := false
    emissions := [] }

/-- Decode a raw integer property value into an StSide (the inverse of
StSide.toInt on the valid range). -/
def decodeSide (v : Int) : StSide :=
  if v = 0 then .top
  else if v = 1 then .right
  else if v = 2 then .bottom
  else .left

/-- shell_edge_drag_gesture_set_side, fed the raw property value: values
outside ST_SIDE_TOP..ST_SIDE_LEFT are rejected by g_return_if_fail (no
state change, no notification); valid values are assigned and notified
unconditionally.  The boolean result records whether the change
notification was emitted. -/
def shell_edge_drag_gesture_set_side (s : State) (v : Int) : State × Bool :=
  if 0 ≤ v ∧ v ≤ 3 then
    ({ s with side := decodeSide v }, true)
  else
    (s, false)

/-- shell_edge_drag_gesture_get_side. -/
def shell_edge_drag_gesture_get_side (s : State) : StSide :=
  s.side

/-- The point's distance inward from the configured edge of monitor `g`
(0 at the edge itself, growing toward the monitor interior).  Spec-level
abbreviation used to state the geometric claims uniformly over sides. -/
def edgeOffset (side : StSide) (g : MRect) (c : Coords) : Int :=
  match side with
  | .left => c.x - g.x
  | .right => g.x + g.width - c.x
  | .top => c.y - g.y
  | .bottom => g.y + g.height - c.y

/-- Proof-side invariant of a single-touch edge-drag run on monitor `g`
with configured side `σ` and begin coordinates `b`: the side is stable,
exactly the one point (with begin `b`) is tracked, the gesture is never
cancelled, and if it completed then the last progress emission exceeded
80 minus the begin offset from the edge. -/
def C2Inv (σ : StSide) (g : MRect) (b : Coords) (s : State) : Prop :=
  s.side = σ ∧ (∃ cur, s.points = [⟨b, cur⟩]) ∧ s.gstate ≠ .cancelled ∧
  (s.gstate = .completed →
    ∃ l, s.emissions.getLast? = some l ∧ 80 - edgeOffset σ g b < l)

/-- Proof-side invariant for the edge-drag recognizer's cancel timer: it
is cleared in terminal states, and it is never armed while no point is
tracked (so a fresh first point can never find a stale timer: the
g_assert in point_began holds). -/
def TimerInv (s : State) : Prop :=
  (s.gstate.isTerminal = true → s.cancelTimeoutArmed = false) ∧
  (s.points = [] → s.cancelTimeoutArmed = false)

end EdgeDrag

namespace DndStart

theorem dndSetState_gstate (s : State) (req : GestureState)
    (h : s.gstate.isTerminal = false) : (setState s req).gstate = req := by
  unfold setState state_changed
  rw [h]
  simp only [Bool.false_eq_true, if_false]
  split <;> rfl

theorem dndSetState_of_terminal (s : State) (req : GestureState)
    (h : s.gstate.isTerminal = true) : setState s req = s := by
  simp [setState, h]

theorem dndSetState_points (s : State) (req : GestureState) :
    (setState s req).points = s.points := by
  simp only [setState, state_changed]
  split
  · rfl
  · split <;> rfl

theorem dndSetState_events_none (s : State) (req : GestureState)
    (hnt : s.gstate.isTerminal = false)
    (hreq : req = .cancelled ∨ req = .completed) :
    (setState s req).pointBeginEvent = none ∧
    (setState s req).dragTriggeringEvent = none := by
  simp [setState, state_changed, hnt, hreq]

end DndStart

namespace EdgeDrag

theorem setState_gstate (s : State) (req : GestureState)
    (h : s.gstate.isTerminal = false) : (setState s req).gstate = req := by
  unfold setState state_changed
  rw [h]
  simp only [Bool.false_eq_true, if_false]
  split <;> rfl

theorem setState_of_terminal (s : State) (req : GestureState)
    (h : s.gstate.isTerminal = true) : setState s req = s := by
  simp [setState, h]

theorem setState_side (s : State) (req : GestureState) :
    (setState s req).side = s.side := by
  simp only [setState, state_changed]
  split
  · rfl
  · split <;> rfl

theorem setState_points (s : State) (req : GestureState) :
    (setState s req).points = s.points := by
  simp only [setState, state_changed]
  split
  · rfl
  · split <;> rfl

theorem setState_emissions (s : State) (req : GestureState) :
    (setState s req).emissions = s.emissions := by
  simp only [setState, state_changed]
  split
  · rfl
  · split <;> rfl

theorem setState_armed_of_terminal_req (s : State) (req : GestureState)
    (hnt : s.gstate.isTerminal = false)
    (hreq : req = .cancelled ∨ req = .completed) :
    (setState s req).cancelTimeoutArmed = false := by
  simp [setState, state_changed, hnt, hreq]

/-- With a single monitor `g`, being near the configured edge is exactly
having an edge offset below the 20px band. -/
theorem is_near_iff_offset (g : MRect) (σ : StSide) (c : Coords) :
    is_near_monitor_edge (fun _ => some g) σ c = decide (edgeOffset σ g c < 20) := by
  cases σ <;> simp [is_near_monitor_edge, edgeOffset] <;> omega

/-- With a single monitor `g`, passing the needed distance is exactly
having an edge offset beyond the 80px drag distance. -/
theorem passes_iff_offset (g : MRect) (σ : StSide) (b c : Coords) :
    passes_distance_needed (fun _ => some g) σ b c = decide (80 < edgeOffset σ g c) := by
  cases σ <;> simp [passes_distance_needed, edgeOffset] <;> omega

/-- The overshoot check is exactly the per-axis absolute displacement
exceeding the 100px cancel threshold. -/
theorem exceeds_iff_axisDisp (σ : StSide) (b c : Coords) :
    exceeds_cancel_threshold σ b c = decide (100 < axisDisp σ b c) := by
  cases σ <;> rfl

/-- The edge-offset gained since begin is at most the absolute per-axis
displacement. -/
theorem offset_gain_le_axisDisp (g : MRect) (σ : StSide) (b c : Coords) :
    edgeOffset σ g c - edgeOffset σ g b ≤ axisDisp σ b c := by
  have h1 := le_abs_self (c.x - b.x)
  have h2 := neg_abs_le (c.x - b.x)
  have h3 := le_abs_self (c.y - b.y)
  have h4 := neg_abs_le (c.y - b.y)
  cases σ <;> simp only [edgeOffset, axisDisp] <;> omega

end EdgeDrag

namespace DndStart

/-- Proof-side invariant for the drag-start recognizer: in a terminal
state both owned event copies have been released and cleared. -/
def CleanInv (s : State) : Prop :=
  s.gstate.isTerminal = true →
    s.pointBeginEvent = none ∧ s.dragTriggeringEvent = none

/-- In manual mode a point-moved dispatch never changes the gesture
state. -/
theorem moved_gstate_manual (cfg : Config) (hm : cfg.manualMode = true)
    (s : State) (i : Nat) (c : Coords) (t : Nat) :
    (step cfg s (.moved i c t)).gstate = s.gstate := by
  simp only [step]
  split
  · rfl
  · split
    · rfl
    · simp [point_moved, hm]

/-- In manual mode any sequence of point-moved dispatches leaves the
gesture state unchanged. -/
theorem run_moved_gstate_manual (cfg : Config) (hm : cfg.manualMode = true) :
    ∀ (inputs : List Input) (s : State), inputs.all Input.isMoved = true →
      (run cfg s inputs).gstate = s.gstate := by
  intro inputs
  induction inputs with
  | nil => intro s _; rfl
  | cons i rest ih =>
      intro s hall
      simp only [List.all_cons, Bool.and_eq_true] at hall
      obtain ⟨hi, hrest⟩ := hall
      cases i with
      | moved j c t =>
          have h1 := moved_gstate_manual cfg hm s j c t
          have h2 := ih (step cfg s (.moved j c t)) hrest
          exact h2.trans h1
      | began d c t => exact absurd hi (by simp [Input.isMoved])
      | ended j => exact absurd hi (by simp [Input.isMoved])
      | startDrag ev => exact absurd hi (by simp [Input.isMoved])

end DndStart

/-- C3: for both recognizers, a point beginning while another point is
still active and the gesture has not terminated makes the point_began
callback transition the gesture to Cancelled. -/
theorem C3_second_point_cancels :
    (∀ (cfg : DndStart.Config) (s : DndStart.State) (d : DeviceType) (c : Coords) (t : Nat),
        s.gstate.isTerminal = false → s.points ≠ [] →
        (DndStart.step cfg s (.began d c t)).gstate = .cancelled) ∧
    (∀ (mon : EdgeDrag.Monitors) (s : EdgeDrag.State) (c : Coords),
        s.gstate.isTerminal = false → s.points ≠ [] →
        (EdgeDrag.step mon s (.began c)).gstate = .cancelled) := by
  constructor
  · intro cfg s d c t hnt hne
    have hlen : 0 < s.points.length := List.length_pos.mpr hne
    simp only [DndStart.step, hnt, Bool.false_eq_true, if_false,
      DndStart.point_began]
    rw [if_pos (by simp; omega)]
    exact DndStart.dndSetState_gstate _ _ hnt
  · intro mon s c hnt hne
    have hlen : 0 < s.points.length := List.length_pos.mpr hne
    simp only [EdgeDrag.step, hnt, Bool.false_eq_true, if_false,
      EdgeDrag.point_began]
    rw [if_pos (Or.inl (by simp; omega))]
    exact EdgeDrag.setState_gstate _ _ hnt

/-- C3 witness: with one active point in the Possible state, a second
begin cancels both recognizers. -/
theorem C3_witness :
    (DndStart.step ⟨8, 1, false, 100⟩
        ⟨.possible, [⟨⟨0, 0⟩, ⟨0, 0⟩, .touchscreenDevice, 0, 0⟩], false,
          some ⟨.touchscreenDevice, 0⟩, none⟩
        (.began .touchscreenDevice ⟨5, 5⟩ 1)).gstate = .cancelled ∧
    (EdgeDrag.step (fun _ => some ⟨0, 0, 1000, 1000⟩)
        ⟨.possible, [⟨⟨0, 500⟩, ⟨0, 500⟩⟩], .left, 0, true, []⟩
        (.began ⟨5, 5⟩)).gstate = .cancelled :=
  ⟨C3_second_point_cancels.1 _ _ _ _ _ (by decide) (by decide),
   C3_second_point_cancels.2 _ _ _ (by decide) (by decide)⟩

/-- C4: with manual mode on, point-moved dispatches never change the
gesture state (so no move sequence completes the gesture); start_drag
with exactly one active point in Possible completes; with any other
point count or state it is a no-op. -/
theorem C4_manual_mode (cfg : DndStart.Config) (hm : cfg.manualMode = true) :
    (∀ (s : DndStart.State) (inputs : List DndStart.Input),
        inputs.all DndStart.Input.isMoved = true →
        (DndStart.run cfg s inputs).gstate = s.gstate) ∧
    (∀ (s : DndStart.State) (ev : Option DndStart.EventCopy),
        s.points.length = 1 → s.gstate = .possible →
        (DndStart.step cfg s (.startDrag ev)).gstate = .completed) ∧
    (∀ (s : DndStart.State) (ev : Option DndStart.EventCopy),
        s.points.length ≠ 1 ∨ s.gstate ≠ .possible →
        DndStart.step cfg s (.startDrag ev) = s) := by
  refine ⟨fun s inputs h => DndStart.run_moved_gstate_manual cfg hm inputs s h, ?_, ?_⟩
  · intro s ev hlen hposs
    have hnt : s.gstate.isTerminal = false := by rw [hposs]; rfl
    cases ev with
    | none =>
        simp only [DndStart.step, DndStart.shell_dnd_start_gesture_start_drag,
          hlen, hposs, ne_eq, not_true_eq_false, if_false, reduceIte]
        exact DndStart.dndSetState_gstate _ _ hnt
    | some e =>
        simp only [DndStart.step, DndStart.shell_dnd_start_gesture_start_drag,
          hlen, hposs, ne_eq, not_true_eq_false, if_false, reduceIte]
        exact DndStart.dndSetState_gstate _ _ rfl
  · intro s ev h
    simp only [DndStart.step, DndStart.shell_dnd_start_gesture_start_drag]
    split
    · rfl
    · next hlen =>
        rcases h with h | h
        · exact absurd h hlen
        · rw [if_neg h]

/-- C4 witness: in manual mode an over-threshold move leaves the state
unchanged; start_drag completes with one point in Possible and is a
no-op on the empty-point initial state. -/
theorem C4_witness :
    (DndStart.run ⟨8, 1, true, 100⟩
        ⟨.possible, [⟨⟨0, 0⟩, ⟨0, 0⟩, .touchscreenDevice, 0, 0⟩], false,
          some ⟨.touchscreenDevice, 0⟩, none⟩
        [.moved 0 ⟨500, 0⟩ 10]).gstate = .possible ∧
    (DndStart.step ⟨8, 1, true, 100⟩
        ⟨.possible, [⟨⟨0, 0⟩, ⟨0, 0⟩, .touchscreenDevice, 0, 0⟩], false,
          some ⟨.touchscreenDevice, 0⟩, none⟩
        (.startDrag none)).gstate = .completed ∧
    DndStart.step ⟨8, 1, true, 100⟩ DndStart.init (.startDrag none) = DndStart.init :=
  ⟨(C4_manual_mode _ rfl).1 _ _ (by decide),
   (C4_manual_mode _ rfl).2.1 _ _ (by decide) (by decide),
   (C4_manual_mode _ rfl).2.2 _ _ (Or.inl (by decide))⟩

/-- C5: a touch beginning more than 20px from the configured edge of its
monitor is cancelled by point_began, and no cancel timer is armed
afterwards. -/
theorem C5_begin_far_cancelled (g : EdgeDrag.MRect) (σ : EdgeDrag.StSide)
    (s : EdgeDrag.State) (c : Coords)
    (hside : s.side = σ) (hnt : s.gstate.isTerminal = false)
    (hpts : s.points = []) (hfar : 20 < EdgeDrag.edgeOffset σ g c) :
    (EdgeDrag.step (fun _ => some g) s (.began c)).gstate = .cancelled ∧
    (EdgeDrag.step (fun _ => some g) s (.began c)).cancelTimeoutArmed = false := by
  have hnear : EdgeDrag.is_near_monitor_edge (fun _ => some g) σ c = false := by
    rw [EdgeDrag.is_near_iff_offset]
    simp
    omega
  simp only [EdgeDrag.step, hnt, Bool.false_eq_true, if_false,
    EdgeDrag.point_began, hpts]
  rw [if_pos (Or.inr (by simpa [hside] using hnear))]
  exact ⟨EdgeDrag.setState_gstate _ _ hnt,
    EdgeDrag.setState_armed_of_terminal_req _ _ hnt (Or.inl rfl)⟩

/-- C5 witness: a touch beginning 30px below the top edge is cancelled
and arms no timer. -/
theorem C5_witness :
    (EdgeDrag.step (fun _ => some ⟨0, 0, 1000, 1000⟩) (EdgeDrag.init .top)
        (.began ⟨500, 30⟩)).gstate = .cancelled ∧
    (EdgeDrag.step (fun _ => some ⟨0, 0, 1000, 1000⟩) (EdgeDrag.init .top)
        (.began ⟨500, 30⟩)).cancelTimeoutArmed = false :=
  C5_begin_far_cancelled ⟨0, 0, 1000, 1000⟩ .top _ ⟨500, 30⟩ (by decide)
    (by decide) (by decide) (by decide)

/-- C6: on a point-moved dispatch whose updated displacement on the axis
relevant to the configured side exceeds 100px, the gesture is cancelled
on that move and no progress emission happens on it. -/
theorem C6_overshoot_cancels (mon : EdgeDrag.Monitors) (s : EdgeDrag.State)
    (i : Nat) (c : Coords) (p : EdgeDrag.GesturePoint)
    (hnt : s.gstate.isTerminal = false)
    (hp : s.points[i]? = some p)
    (hdisp : 100 < EdgeDrag.axisDisp s.side p.beginCoords c) :
    (EdgeDrag.step mon s (.moved i c)).gstate = .cancelled ∧
    (EdgeDrag.step mon s (.moved i c)).emissions = s.emissions := by
  have hi : i < s.points.length := (List.getElem?_eq_some.mp hp).1
  simp only [EdgeDrag.step, hnt, Bool.false_eq_true, if_false, hp,
    EdgeDrag.point_moved]
  rw [List.getElem?_set_self (by simpa using hi)]
  simp only [Option.getD_some]
  rw [if_pos (by
    rw [EdgeDrag.exceeds_iff_axisDisp]
    simpa using hdisp)]
  exact ⟨EdgeDrag.setState_gstate _ _ hnt, EdgeDrag.setState_emissions _ _⟩

/-- C6 witness: a 150px horizontal displacement on a Left edge gesture
cancels with no emission added. -/
theorem C6_witness :
    (EdgeDrag.step (fun _ => some ⟨0, 0, 1000, 1000⟩)
        ⟨.possible, [⟨⟨0, 500⟩, ⟨0, 500⟩⟩], .left, 0, true, []⟩
        (.moved 0 ⟨150, 500⟩)).gstate = .cancelled ∧
    (EdgeDrag.step (fun _ => some ⟨0, 0, 1000, 1000⟩)
        ⟨.possible, [⟨⟨0, 500⟩, ⟨0, 500⟩⟩], .left, 0, true, []⟩
        (.moved 0 ⟨150, 500⟩)).emissions = [] :=
  C6_overshoot_cancels _ _ 0 ⟨150, 500⟩ ⟨⟨0, 500⟩, ⟨0, 500⟩⟩ (by decide)
    (by decide) (by decide)

/-- C7: when the armed cancel timer fires, the handle is cleared; the
gesture is cancelled exactly when the watched point is still within the
edge band, and the state is untouched otherwise; a second firing is a
no-op, i.e. the timer never fires again. -/
theorem C7_cancel_timer (mon : EdgeDrag.Monitors) (s : EdgeDrag.State)
    (harmed : s.cancelTimeoutArmed = true) (hnt : s.gstate.isTerminal = false) :
    (EdgeDrag.step mon s .timerFired).cancelTimeoutArmed = false ∧
    (EdgeDrag.is_near_monitor_edge mon s.side
        ((s.points[s.cancelTimeoutPoint]?.getD default).coords) = true →
      (EdgeDrag.step mon s .timerFired).gstate = .cancelled) ∧
    (EdgeDrag.is_near_monitor_edge mon s.side
        ((s.points[s.cancelTimeoutPoint]?.getD default).coords) = false →
      (EdgeDrag.step mon s .timerFired).gstate = s.gstate) ∧
    EdgeDrag.step mon (EdgeDrag.step mon s .timerFired) .timerFired =
      EdgeDrag.step mon s .timerFired := by
  have harm2 : (EdgeDrag.step mon s .timerFired).cancelTimeoutArmed = false := by
    simp [EdgeDrag.step, harmed, EdgeDrag.on_cancel_timeout]
  refine ⟨harm2, ?_, ?_, ?_⟩
  · intro hnear
    simp only [EdgeDrag.step, harmed, if_true, EdgeDrag.on_cancel_timeout, hnear]
    exact EdgeDrag.setState_gstate _ _ hnt
  · intro hnear
    simp [EdgeDrag.step, harmed, EdgeDrag.on_cancel_timeout, hnear]
  · show (if (EdgeDrag.step mon s .timerFired).cancelTimeoutArmed = true then
        EdgeDrag.on_cancel_timeout mon (EdgeDrag.step mon s .timerFired)
      else EdgeDrag.step mon s .timerFired) = EdgeDrag.step mon s .timerFired
    rw [harm2]
    simp

/-- C7 witness: a timer firing on a touch still 10px from the top edge
cancels the gesture, clears the handle, and a second firing changes
nothing. -/
theorem C7_witness :
    (EdgeDrag.step (fun _ => some ⟨0, 0, 1000, 1000⟩)
        ⟨.possible, [⟨⟨500, 10⟩, ⟨500, 10⟩⟩], .top, 0, true, []⟩
        .timerFired).cancelTimeoutArmed = false ∧
    (EdgeDrag.step (fun _ => some ⟨0, 0, 1000, 1000⟩)
        ⟨.possible, [⟨⟨500, 10⟩, ⟨500, 10⟩⟩], .top, 0, true, []⟩
        .timerFired).gstate = .cancelled ∧
    EdgeDrag.step (fun _ => some ⟨0, 0, 1000, 1000⟩)
        (EdgeDrag.step (fun _ => some ⟨0, 0, 1000, 1000⟩)
          ⟨.possible, [⟨⟨500, 10⟩, ⟨500, 10⟩⟩], .top, 0, true, []⟩ .timerFired)
        .timerFired =
      EdgeDrag.step (fun _ => some ⟨0, 0, 1000, 1000⟩)
        ⟨.possible, [⟨⟨500, 10⟩, ⟨500, 10⟩⟩], .top, 0, true, []⟩ .timerFired :=
  ⟨(C7_cancel_timer _ _ (by decide) (by decide)).1,
   (C7_cancel_timer _ _ (by decide) (by decide)).2.1 (by decide),
   (C7_cancel_timer _ _ (by decide) (by decide)).2.2.2⟩

/-- C9: the side setter rejects raw values outside ST_SIDE_TOP ..
ST_SIDE_LEFT with no state change and no notification; a valid value is
stored and the change notification fires unconditionally, including when
the stored value is unchanged. -/
theorem C9_set_side (s : EdgeDrag.State) (v : Int) :
    (¬(0 ≤ v ∧ v ≤ 3) →
      EdgeDrag.shell_edge_drag_gesture_set_side s v = (s, false)) ∧
    ((0 ≤ v ∧ v ≤ 3) →
      (EdgeDrag.shell_edge_drag_gesture_set_side s v).1.side = EdgeDrag.decodeSide v ∧
      (EdgeDrag.shell_edge_drag_gesture_set_side s v).2 = true) := by
  constructor
  · intro h
    simp [EdgeDrag.shell_edge_drag_gesture_set_side, h]
  · intro h
    simp [EdgeDrag.shell_edge_drag_gesture_set_side, h]

namespace EdgeDrag

theorem setState_armed_of_recognizing (s : State) :
    (setState s .recognizing).cancelTimeoutArmed = s.cancelTimeoutArmed := by
  simp only [setState, state_changed]
  split
  · rfl
  · split
    · simp_all
    · rfl

/-- A point-moved dispatch from a non-terminal state either leaves the
emission log unchanged or appends exactly the per-axis displacement of
the moved point — and in the latter case the overshoot check had
failed. -/
theorem point_moved_emissions (mon : Monitors) (s : State) (j : Nat)
    (hnt : s.gstate.isTerminal = false) :
    (point_moved mon s j).emissions = s.emissions ∨
    ((point_moved mon s j).emissions =
        s.emissions ++ [axisDisp s.side (s.points[j]?.getD default).beginCoords
          (s.points[j]?.getD default).coords] ∧
      exceeds_cancel_threshold s.side (s.points[j]?.getD default).beginCoords
          (s.points[j]?.getD default).coords = false) := by
  by_cases hex : exceeds_cancel_threshold s.side
      (s.points[j]?.getD default).beginCoords (s.points[j]?.getD default).coords = true
  · left
    simp only [point_moved, hex, if_true, setState_emissions]
  · rw [Bool.not_eq_true] at hex
    by_cases hc : s.gstate = .possible ∧ is_near_monitor_edge mon s.side
        (s.points[j]?.getD default).coords = false
    · have hg := setState_gstate s .recognizing hnt
      right
      refine ⟨?_, hex⟩
      simp only [point_moved, hex, Bool.false_eq_true, if_false, hc, and_self,
        if_true, hg, reduceIte, setState_side, setState_emissions]
      split <;> simp [setState_emissions, setState_side]
    · by_cases hrec : s.gstate = .recognizing
      · right
        refine ⟨?_, hex⟩
        have hps : (s.gstate = GestureState.possible ∧
            is_near_monitor_edge mon s.side (s.points[j]?.getD default).coords = false)
            = False := by
          simp [hrec]
        simp only [point_moved, hex, Bool.false_eq_true, if_false, hps,
          reduceIte]
        rw [if_pos hrec]
        split <;> simp [setState_emissions]
      · left
        have hps : (s.gstate = GestureState.possible ∧
            is_near_monitor_edge mon s.side (s.points[j]?.getD default).coords = false)
            = False := by
          simp only [eq_iff_iff, iff_false]
          exact hc
        have hrec2 : (s.gstate = GestureState.recognizing) = False := by
          simp only [eq_iff_iff, iff_false]
          exact hrec
        simp only [point_moved, hex, Bool.false_eq_true, if_false, hps, hrec2,
          reduceIte]

/-- A point-moved dispatch from a non-terminal state only records
progress values of at most 100: the overshoot check runs first. -/
theorem point_moved_all_le (mon : Monitors) (s : State) (j : Nat)
    (hnt : s.gstate.isTerminal = false)
    (h : s.emissions.all (fun v => decide (v ≤ 100)) = true) :
    (point_moved mon s j).emissions.all (fun v => decide (v ≤ 100)) = true := by
  rcases point_moved_emissions mon s j hnt with he | ⟨he, hex⟩
  · rw [he]
    exact h
  · rw [he]
    have hd : axisDisp s.side (s.points[j]?.getD default).beginCoords
        (s.points[j]?.getD default).coords ≤ 100 := by
      rw [exceeds_iff_axisDisp] at hex
      simpa using hex
    rw [List.all_append]
    simp [h, hd]

/-- No single dispatch step records a progress value above 100. -/
theorem step_all_le (mon : Monitors) (s : State) (i : Input)
    (h : s.emissions.all (fun v => decide (v ≤ 100)) = true) :
    (step mon s i).emissions.all (fun v => decide (v ≤ 100)) = true := by
  cases i with
  | began c =>
      simp only [step]
      split
      · exact h
      · simp only [point_began]
        split
        · rw [setState_emissions]
          exact h
        · exact h
  | moved j c =>
      simp only [step]
      split
      · exact h
      · next hnt =>
          split
          · exact h
          · exact point_moved_all_le mon _ j (by simpa using hnt) h
  | ended j =>
      simp only [step]
      split
      · show ((if s.gstate.isTerminal = true then s else point_ended s).emissions).all _ = true
        split
        · exact h
        · simp only [point_ended, setState_emissions]
          exact h
      · exact h
  | timerFired =>
      simp only [step]
      split
      · simp only [on_cancel_timeout]
        split
        · rw [setState_emissions]
          exact h
        · exact h
      · exact h

/-- Over any run, every recorded progress value is at most 100. -/
theorem run_all_le (mon : Monitors) :
    ∀ (inputs : List Input) (s : State),
      s.emissions.all (fun v => decide (v ≤ 100)) = true →
      (run mon s inputs).emissions.all (fun v => decide (v ≤ 100)) = true := by
  intro inputs
  induction inputs with
  | nil => exact fun s h => h
  | cons i rest ih => exact fun s h => ih _ (step_all_le mon s i h)

end EdgeDrag

/-- C10: in every run of the edge-drag recognizer, every value carried
by a progress emission is at most 100 (the overshoot cancel distance):
the overshoot check runs and cancels before any emission on each move. -/
theorem C10_progress_at_most_overshoot (mon : EdgeDrag.Monitors)
    (σ : EdgeDrag.StSide) (inputs : List EdgeDrag.Input) :
    (EdgeDrag.run mon (EdgeDrag.init σ) inputs).emissions.all
      (fun v => decide (v ≤ 100)) = true :=
  EdgeDrag.run_all_le mon inputs (EdgeDrag.init σ) rfl

/-- C9 witness: value 7 is rejected with no notification; value 0 on a
gesture whose side is already Top is stored and still notified. -/
theorem C9_witness :
    EdgeDrag.shell_edge_drag_gesture_set_side (EdgeDrag.init .top) 7 =
      (EdgeDrag.init .top, false) ∧
    ((EdgeDrag.shell_edge_drag_gesture_set_side (EdgeDrag.init .top) 0).1.side =
        EdgeDrag.decodeSide 0 ∧
      (EdgeDrag.shell_edge_drag_gesture_set_side (EdgeDrag.init .top) 0).2 = true) :=
  ⟨(C9_set_side _ _).1 (by decide), (C9_set_side _ _).2 (by decide)⟩


namespace DndStart

theorem nonterminal_cleanInv (s : State) (h : s.gstate.isTerminal = false) :
    CleanInv s :=
  fun ht => absurd ht (by simp [h])

theorem setState_cleanInv (s : State) (req : GestureState)
    (h : s.gstate.isTerminal = false) : CleanInv (setState s req) := by
  unfold CleanInv setState state_changed
  rw [h]
  simp only [Bool.false_eq_true, if_false]
  by_cases hr : req = GestureState.cancelled ∨ req = GestureState.completed
  · rw [if_pos hr]
    exact fun _ => ⟨rfl, rfl⟩
  · rw [if_neg hr]
    intro hterm
    cases req with
    | possible => exact absurd hterm (by simp [GestureState.isTerminal])
    | recognizing => exact absurd hterm (by simp [GestureState.isTerminal])
    | cancelled => exact absurd (Or.inl rfl) hr
    | completed => exact absurd (Or.inr rfl) hr

theorem start_drag_cleanInv (s : State) (ev : Option EventCopy)
    (h : CleanInv s) : CleanInv (shell_dnd_start_gesture_start_drag s ev) := by
  unfold shell_dnd_start_gesture_start_drag
  split
  · exact h
  · split
    · next hposs =>
        have hnt : s.gstate.isTerminal = false := by rw [hposs]; rfl
        cases ev with
        | some e => exact setState_cleanInv _ _ hnt
        | none => exact setState_cleanInv _ _ hnt
    · exact h

theorem maybe_start_drag_cleanInv (cfg : Config) (s : State) (p : GesturePoint)
    (h : s.gstate.isTerminal = false) : CleanInv (maybe_start_drag cfg s p) := by
  have leaf : CleanInv s := nonterminal_cleanInv s h
  have leaf2 : CleanInv { s with dragThresholdIgnored := true } :=
    nonterminal_cleanInv _ h
  have leaf3 : ∀ ev, CleanInv (shell_dnd_start_gesture_start_drag s ev) :=
    fun ev => start_drag_cleanInv _ _ leaf
  simp only [maybe_start_drag]
  split
  · exact leaf
  · split <;> (try split) <;>
      first | exact leaf3 _ | exact leaf2 | exact leaf

theorem point_began_cleanInv (cfg : Config) (s : State) (p : GesturePoint)
    (h : s.gstate.isTerminal = false) : CleanInv (point_began cfg s p) := by
  simp only [point_began]
  split
  · exact setState_cleanInv _ _ h
  · split
    · exact maybe_start_drag_cleanInv _ _ _ h
    · exact nonterminal_cleanInv _ h

theorem point_moved_cleanInv (cfg : Config) (s : State) (p : GesturePoint)
    (h : s.gstate.isTerminal = false) : CleanInv (point_moved cfg s p) := by
  unfold point_moved
  split
  · exact maybe_start_drag_cleanInv _ _ _ h
  · exact nonterminal_cleanInv s h

theorem point_ended_cleanInv (s : State)
    (h : s.gstate.isTerminal = false) : CleanInv (point_ended s) := by
  unfold point_ended
  split
  · exact setState_cleanInv _ _ h
  · exact nonterminal_cleanInv s h

theorem step_cleanInv (cfg : Config) (s : State) (i : Input)
    (h : CleanInv s) : CleanInv (step cfg s i) := by
  cases i with
  | began d c t =>
      simp only [step]
      split
      · exact h
      · next hnt => exact point_began_cleanInv _ _ _ (by simpa using hnt)
  | moved j c t =>
      simp only [step]
      split
      · exact h
      · next hnt =>
          split
          · exact h
          · exact point_moved_cleanInv _ _ _ (by simpa using hnt)
  | ended j =>
      simp only [step]
      split
      · by_cases ht : s.gstate.isTerminal = true
        · rw [if_pos ht]
          exact h
        · rw [if_neg ht]
          exact point_ended_cleanInv _ (by simpa using ht)
      · exact h
  | startDrag ev => exact start_drag_cleanInv _ _ h

theorem run_cleanInv (cfg : Config) :
    ∀ (inputs : List Input) (s : State),
      CleanInv s → CleanInv (run cfg s inputs) := by
  intro inputs
  induction inputs with
  | nil => exact fun s h => h
  | cons i rest ih => exact fun s h => ih _ (step_cleanInv cfg s i h)

end DndStart

namespace EdgeDrag

theorem nonterminal_first (s : State) (h : s.gstate.isTerminal = false) :
    s.gstate.isTerminal = true → s.cancelTimeoutArmed = false :=
  fun ht => absurd ht (by simp [h])

theorem setState_timerInv (s : State) (req : GestureState)
    (h2 : s.points = [] → s.cancelTimeoutArmed = false)
    (hnt : s.gstate.isTerminal = false) : TimerInv (setState s req) := by
  unfold setState state_changed
  rw [hnt]
  simp only [Bool.false_eq_true, if_false]
  by_cases hr : req = GestureState.cancelled ∨ req = GestureState.completed
  · rw [if_pos hr]
    exact ⟨fun _ => rfl, fun _ => rfl⟩
  · rw [if_neg hr]
    constructor
    · intro hterm
      cases req with
      | possible => exact absurd hterm (by simp [GestureState.isTerminal])
      | recognizing => exact absurd hterm (by simp [GestureState.isTerminal])
      | cancelled => exact absurd (Or.inl rfl) hr
      | completed => exact absurd (Or.inr rfl) hr
    · exact h2

theorem point_moved_timerInv (mon : Monitors) (s : State) (j : Nat)
    (hnt : s.gstate.isTerminal = false)
    (h2 : s.points = [] → s.cancelTimeoutArmed = false) :
    TimerInv (point_moved mon s j) := by
  by_cases hex : exceeds_cancel_threshold s.side
      (s.points[j]?.getD default).beginCoords (s.points[j]?.getD default).coords = true
  · simp only [point_moved, hex, if_true]
    exact setState_timerInv _ _ h2 hnt
  · rw [Bool.not_eq_true] at hex
    by_cases hc : s.gstate = .possible ∧ is_near_monitor_edge mon s.side
        (s.points[j]?.getD default).coords = false
    · have hg := setState_gstate s .recognizing hnt
      have h2r : (setState s .recognizing).points = [] →
          (setState s .recognizing).cancelTimeoutArmed = false := by
        rw [setState_points, setState_armed_of_recognizing]
        exact h2
      simp only [point_moved, hex, Bool.false_eq_true, if_false, hc, and_self,
        if_true, hg, reduceIte]
      split
      · exact setState_timerInv _ _ h2r rfl
      · exact ⟨nonterminal_first _ rfl, h2r⟩
  -- note: the two branches above receive the emission-extended state,
  -- whose points/armed/gstate coincide with those of setState s recognizing
    · by_cases hrec : s.gstate = .recognizing
      · have hps : (s.gstate = GestureState.possible ∧
            is_near_monitor_edge mon s.side (s.points[j]?.getD default).coords = false)
            = False := by
          simp [hrec]
        simp only [point_moved, hex, Bool.false_eq_true, if_false, hps,
          reduceIte]
        rw [if_pos hrec]
        split
        · exact setState_timerInv _ _ h2 hnt
        · exact ⟨nonterminal_first _ hnt, h2⟩
      · have hps : (s.gstate = GestureState.possible ∧
            is_near_monitor_edge mon s.side (s.points[j]?.getD default).coords = false)
            = False := by
          simp only [eq_iff_iff, iff_false]
          exact hc
        have hrec2 : (s.gstate = GestureState.recognizing) = False := by
          simp only [eq_iff_iff, iff_false]
          exact hrec
        simp only [point_moved, hex, Bool.false_eq_true, if_false, hps, hrec2,
          reduceIte]
        exact ⟨nonterminal_first _ hnt, h2⟩

theorem step_timerInv (mon : Monitors) (s : State) (i : Input)
    (h : TimerInv s) : TimerInv (step mon s i) := by
  obtain ⟨h1, h2⟩ := h
  cases i with
  | began c =>
      simp only [step]
      split
      · exact ⟨h1, h2⟩
      · next hnt =>
          simp only [point_began]
          split
          · exact setState_timerInv _ _ (by simp) (by simpa using hnt)
          · exact ⟨nonterminal_first _ (by simpa using hnt), by simp⟩
  | moved j c =>
      simp only [step]
      split
      · exact ⟨h1, h2⟩
      · next hnt =>
          split
          · exact ⟨h1, h2⟩
          · next p0 hp =>
              apply point_moved_timerInv mon _ j (by simpa using hnt)
              intro hempty
              exact absurd hempty (by
                have : j < s.points.length := (List.getElem?_eq_some.mp hp).1
                simp only [← List.length_eq_zero]
                rw [List.length_set]
                omega)
  | ended j =>
      simp only [step]
      split
      · by_cases ht : s.gstate.isTerminal = true
        · rw [if_pos ht]
          exact ⟨fun _ => h1 ht, fun _ => h1 ht⟩
        · rw [if_neg ht]
          have harm : (point_ended s).cancelTimeoutArmed = false := by
            unfold point_ended
            exact setState_armed_of_terminal_req _ _ (by simpa using ht) (Or.inl rfl)
          exact ⟨fun _ => harm, fun _ => harm⟩
      · exact ⟨h1, h2⟩
  | timerFired =>
      simp only [step]
      split
      · exact ⟨fun _ => rfl, fun _ => rfl⟩
      · exact ⟨h1, h2⟩

theorem run_timerInv (mon : Monitors) :
    ∀ (inputs : List Input) (s : State),
      TimerInv s → TimerInv (run mon s inputs) := by
  intro inputs
  induction inputs with
  | nil => exact fun s h => h
  | cons i rest ih => exact fun s h => ih _ (step_timerInv mon s i h)

end EdgeDrag

/-- C8: in every run from the initial state, whenever the drag-start
recognizer is in a terminal state both owned event copies have been
released and cleared, so its two accessors return null; and for the
edge-drag recognizer the cancel timer is cleared in every terminal
state and is never armed while no point is tracked (hence arming a
fresh first point never finds a stale timer, and at most one timer is
live at a time). -/
theorem C8_terminal_cleanup :
    (∀ (cfg : DndStart.Config) (inputs : List DndStart.Input),
        (DndStart.run cfg DndStart.init inputs).gstate.isTerminal = true →
        DndStart.shell_dnd_start_gesture_get_point_begin_event
            (DndStart.run cfg DndStart.init inputs) = none ∧
        DndStart.shell_dnd_start_gesture_get_drag_triggering_event
            (DndStart.run cfg DndStart.init inputs) = none) ∧
    (∀ (mon : EdgeDrag.Monitors) (σ : EdgeDrag.StSide)
        (inputs : List EdgeDrag.Input),
        ((EdgeDrag.run mon (EdgeDrag.init σ) inputs).gstate.isTerminal = true →
          (EdgeDrag.run mon (EdgeDrag.init σ) inputs).cancelTimeoutArmed = false) ∧
        ((EdgeDrag.run mon (EdgeDrag.init σ) inputs).points = [] →
          (EdgeDrag.run mon (EdgeDrag.init σ) inputs).cancelTimeoutArmed = false)) :=
  ⟨fun cfg inputs =>
      DndStart.run_cleanInv cfg inputs DndStart.init
        (DndStart.nonterminal_cleanInv _ rfl),
   fun mon σ inputs =>
      EdgeDrag.run_timerInv mon inputs (EdgeDrag.init σ)
        ⟨fun _ => rfl, fun _ => rfl⟩⟩

/-- C8 witness: a touch begin followed by a lift cancels the drag-start
gesture with both accessors null; a touch beginning away from the top
edge cancels the edge gesture with no armed timer. -/
theorem C8_witness :
    (DndStart.shell_dnd_start_gesture_get_point_begin_event
        (DndStart.run ⟨8, 1, false, 100⟩ DndStart.init
          [.began .touchscreenDevice ⟨0, 0⟩ 0, .ended 0]) = none ∧
      DndStart.shell_dnd_start_gesture_get_drag_triggering_event
        (DndStart.run ⟨8, 1, false, 100⟩ DndStart.init
          [.began .touchscreenDevice ⟨0, 0⟩ 0, .ended 0]) = none) ∧
    (EdgeDrag.run (fun _ => some ⟨0, 0, 1000, 1000⟩) (EdgeDrag.init .top)
        [.began ⟨500, 500⟩]).cancelTimeoutArmed = false :=
  ⟨C8_terminal_cleanup.1 ⟨8, 1, false, 100⟩ _ (by decide),
   (C8_terminal_cleanup.2 (fun _ => some ⟨0, 0, 1000, 1000⟩) .top
      [.began ⟨500, 500⟩]).1 (by decide)⟩

namespace DndStart

/-- Once the ignore flag is set (while Possible, manual mode off), a
point-moved dispatch changes neither the gesture state nor the flag:
maybe_start_drag returns immediately. -/
theorem moved_ignored_inert (cfg : Config) (s : State) (i : Nat) (c : Coords)
    (t : Nat) (hm : cfg.manualMode = false) (hposs : s.gstate = .possible)
    (hig : s.dragThresholdIgnored = true) :
    (step cfg s (.moved i c t)).gstate = .possible ∧
    (step cfg s (.moved i c t)).dragThresholdIgnored = true := by
  have hnt : s.gstate.isTerminal = false := by rw [hposs]; rfl
  simp only [step, hnt, Bool.false_eq_true, if_false]
  split
  · exact ⟨hposs, hig⟩
  · simp only [point_moved, hm, hposs, and_self, reduceIte, maybe_start_drag,
      hig, if_true]

/-- With the ignore flag set in the Possible state and manual mode off,
no sequence of point-moved dispatches leaves the Possible state. -/
theorem run_ignored_inert (cfg : Config) (hm : cfg.manualMode = false) :
    ∀ (inputs : List Input) (s : State),
      inputs.all Input.isMoved = true →
      s.gstate = .possible → s.dragThresholdIgnored = true →
      (run cfg s inputs).gstate = .possible := by
  intro inputs
  induction inputs with
  | nil => intro s _ h _; exact h
  | cons i rest ih =>
      intro s hall hposs hig
      simp only [List.all_cons, Bool.and_eq_true] at hall
      obtain ⟨hi, hrest⟩ := hall
      cases i with
      | moved j c t =>
          obtain ⟨h1, h2⟩ := moved_ignored_inert cfg s j c t hm hposs hig
          exact ih _ hrest h1 h2
      | began d c t => exact absurd hi (by simp [Input.isMoved])
      | ended j => exact absurd hi (by simp [Input.isMoved])
      | startDrag ev => exact absurd hi (by simp [Input.isMoved])

end DndStart

/-- C1 counterexample: manual mode off, touch device, threshold 8
(scale 1), timeout 100ms.  The move at t=10 exceeds the threshold while
elapsed time (10ms) is below the timeout, and a later move at t=500
(elapsed 500ms, above the timeout, again over threshold) still does not
complete the gesture: the run ends in Possible, not Completed, because
the ignore flag set on the first over-threshold move suppresses every
later check. -/
theorem C1_counterexample :
    ((50 : Int) > 8 * 1 ∧ u32sub 10 0 < 100 ∧ u32sub 500 0 > 100 ∧
      (100 : Int) > 8 * 1) ∧
    (DndStart.run ⟨8, 1, false, 100⟩ DndStart.init
        [.began .touchscreenDevice ⟨0, 0⟩ 0, .moved 0 ⟨50, 0⟩ 10,
          .moved 0 ⟨100, 0⟩ 500]).gstate ≠ .completed ∧
    (DndStart.run ⟨8, 1, false, 100⟩ DndStart.init
        [.began .touchscreenDevice ⟨0, 0⟩ 0, .moved 0 ⟨50, 0⟩ 10,
          .moved 0 ⟨100, 0⟩ 500]).gstate = .possible := by
  decide

/-- C1 (amended): manual mode off, touch device: a move exceeding the
scaled threshold while elapsed time is below the timeout does not
complete the gesture on that move — it stays Possible and sets the
ignore flag — and no subsequent sequence of point-moved dispatches
completes it either: every later automatic threshold check is
suppressed by the flag. -/
theorem C1_amended (cfg : DndStart.Config) (s : DndStart.State) (i : Nat)
    (c : Coords) (t : Nat) (p0 : DndStart.GesturePoint) (e : DndStart.EventCopy)
    (hmanual : cfg.manualMode = false)
    (hstate : s.gstate = .possible)
    (hignored : s.dragThresholdIgnored = false)
    (hp : s.points[i]? = some p0)
    (hbe : s.pointBeginEvent = some e)
    (htouch : p0.device = .touchscreenDevice)
    (hover : |c.x - p0.beginCoords.x| > cfg.dragThreshold * cfg.scaleFactor ∨
             |c.y - p0.beginCoords.y| > cfg.dragThreshold * cfg.scaleFactor)
    (htime : u32sub t e.time < cfg.timeoutThresholdMs) :
    (DndStart.step cfg s (.moved i c t)).gstate = .possible ∧
    (DndStart.step cfg s (.moved i c t)).dragThresholdIgnored = true ∧
    ∀ (laterInputs : List DndStart.Input),
      laterInputs.all DndStart.Input.isMoved = true →
      (DndStart.run cfg (DndStart.step cfg s (.moved i c t)) laterInputs).gstate
        = .possible := by
  have hnt : s.gstate.isTerminal = false := by rw [hstate]; rfl
  have hkey : (DndStart.step cfg s (.moved i c t)).gstate = .possible ∧
      (DndStart.step cfg s (.moved i c t)).dragThresholdIgnored = true := by
    simp only [DndStart.step, hnt, Bool.false_eq_true, if_false, hp]
    simp only [DndStart.point_moved, hmanual, hstate, and_self, reduceIte]
    simp only [DndStart.maybe_start_drag, hignored, Bool.false_eq_true, if_false]
    rw [if_pos (by simpa using hover)]
    rw [if_neg ?hneg]
    case hneg =>
      intro hcont
      simp only [hbe, htouch] at hcont
      rcases hcont with h1 | h1
      · simp at h1
      · omega
    exact ⟨rfl, rfl⟩
  exact ⟨hkey.1, hkey.2, fun l hl =>
    DndStart.run_ignored_inert cfg hmanual l _ hl hkey.1 hkey.2⟩

/-- C1 witness: concrete over-threshold touch move at 10ms with a 100ms
timeout: the gesture stays Possible, the flag is set, and one further
over-threshold move at 500ms still leaves it Possible. -/
theorem C1_witness :
    (DndStart.step ⟨8, 1, false, 100⟩
        ⟨.possible, [⟨⟨0, 0⟩, ⟨0, 0⟩, .touchscreenDevice, 0, 0⟩], false,
          some ⟨.touchscreenDevice, 0⟩, none⟩
        (.moved 0 ⟨50, 0⟩ 10)).gstate = .possible ∧
    (DndStart.step ⟨8, 1, false, 100⟩
        ⟨.possible, [⟨⟨0, 0⟩, ⟨0, 0⟩, .touchscreenDevice, 0, 0⟩], false,
          some ⟨.touchscreenDevice, 0⟩, none⟩
        (.moved 0 ⟨50, 0⟩ 10)).dragThresholdIgnored = true ∧
    ∀ (laterInputs : List DndStart.Input),
      laterInputs.all DndStart.Input.isMoved = true →
      (DndStart.run ⟨8, 1, false, 100⟩
          (DndStart.step ⟨8, 1, false, 100⟩
            ⟨.possible, [⟨⟨0, 0⟩, ⟨0, 0⟩, .touchscreenDevice, 0, 0⟩], false,
              some ⟨.touchscreenDevice, 0⟩, none⟩
            (.moved 0 ⟨50, 0⟩ 10)) laterInputs).gstate = .possible :=
  C1_amended ⟨8, 1, false, 100⟩ _ 0 ⟨50, 0⟩ 10
    ⟨⟨0, 0⟩, ⟨0, 0⟩, .touchscreenDevice, 0, 0⟩ ⟨.touchscreenDevice, 0⟩
    (by decide) (by decide) (by decide) (by decide) (by decide) (by decide)
    (by decide) (by decide)

namespace EdgeDrag

theorem run_cons (mon : Monitors) (s : State) (i : Input) (rest : List Input) :
    run mon s (i :: rest) = run mon (step mon s i) rest := rfl

/-- Once terminal, a sequence of point-moved dispatches is not delivered
and the state is unchanged. -/
theorem run_moved_frozen (mon : Monitors) :
    ∀ (moves : List Coords) (s : State), s.gstate.isTerminal = true →
      run mon s (moves.map (fun c => Input.moved 0 c)) = s := by
  intro moves
  induction moves with
  | nil => intro s _; rfl
  | cons c rest ih =>
      intro s ht
      rw [List.map_cons, run_cons]
      have hstep : step mon s (.moved 0 c) = s := by
        simp [step, ht]
      rw [hstep]
      exact ih s ht

/-- Full characterization of a point-moved dispatch on a single-monitor,
single-point state whose displacement does not exceed the cancel
threshold: in the Possible state and still within the edge band, nothing
happens; otherwise the gesture is (promoted to) Recognizing, the
per-axis displacement is emitted, and the gesture completes exactly when
the point is past the monitor edge by more than the needed distance. -/
theorem point_moved_single_eq (g : MRect) (σ : StSide) (b c : Coords)
    (gs : GestureState) (tp : Nat) (ta : Bool) (em : List Int)
    (hgs : gs = .possible ∨ gs = .recognizing)
    (hd : axisDisp σ b c ≤ 100) :
    point_moved (fun _ => some g) ⟨gs, [⟨b, c⟩], σ, tp, ta, em⟩ 0 =
      if gs = .possible ∧ edgeOffset σ g c < 20 then
        ⟨gs, [⟨b, c⟩], σ, tp, ta, em⟩
      else if 80 < edgeOffset σ g c then
        ⟨.completed, [⟨b, c⟩], σ, tp, false, em ++ [axisDisp σ b c]⟩
      else
        ⟨.recognizing, [⟨b, c⟩], σ, tp, ta, em ++ [axisDisp σ b c]⟩ := by
  have hexc : exceeds_cancel_threshold σ b c = false := by
    rw [exceeds_iff_axisDisp]
    simp only [decide_eq_false_iff_not, not_lt]
    exact hd
  rcases hgs with hgs | hgs <;> subst hgs
  · by_cases hn : edgeOffset σ g c < 20
    · rw [if_pos ⟨rfl, hn⟩]
      simp [point_moved, hexc, is_near_iff_offset, hn]
    · rw [if_neg (by simp [hn])]
      by_cases hp80 : 80 < edgeOffset σ g c
      · rw [if_pos hp80]
        simp [point_moved, hexc, is_near_iff_offset, passes_iff_offset, hn,
          hp80, setState, state_changed, GestureState.isTerminal]
      · rw [if_neg hp80]
        simp [point_moved, hexc, is_near_iff_offset, passes_iff_offset, hn,
          hp80, setState, state_changed, GestureState.isTerminal]
  · rw [if_neg (by simp)]
    by_cases hp80 : 80 < edgeOffset σ g c
    · rw [if_pos hp80]
      simp [point_moved, hexc, is_near_iff_offset, passes_iff_offset, hp80,
        setState, state_changed, GestureState.isTerminal]
    · rw [if_neg hp80]
      simp [point_moved, hexc, is_near_iff_offset, passes_iff_offset, hp80,
        setState, state_changed, GestureState.isTerminal]

/-- One move of the single-touch completion analysis: the invariant is
preserved, and a move past the needed distance completes the gesture. -/
theorem c2_step (g : MRect) (σ : StSide) (b : Coords)
    (hb0 : 0 ≤ edgeOffset σ g b) (s : State) (c : Coords)
    (hInv : C2Inv σ g b s) (hd : axisDisp σ b c ≤ 100) :
    C2Inv σ g b (step (fun _ => some g) s (.moved 0 c)) ∧
    (80 < edgeOffset σ g c - edgeOffset σ g b →
      (step (fun _ => some g) s (.moved 0 c)).gstate = .completed) := by
  obtain ⟨gs, pts, sd, tp, ta, em⟩ := s
  obtain ⟨hside, ⟨cur, hpts⟩, hnc, hcomp⟩ := hInv
  simp only at hside hpts hnc hcomp
  subst hside hpts
  by_cases ht : gs.isTerminal = true
  · have hfroz : step (fun _ => some g) ⟨gs, [⟨b, cur⟩], sd, tp, ta, em⟩
        (.moved 0 c) = ⟨gs, [⟨b, cur⟩], sd, tp, ta, em⟩ := by
      simp [step, ht]
    rw [hfroz]
    have hcm : gs = .completed := by
      cases gs
      · exact absurd ht (by decide)
      · exact absurd ht (by decide)
      · exact absurd rfl hnc
      · rfl
    exact ⟨⟨rfl, ⟨cur, rfl⟩, hnc, hcomp⟩, fun _ => hcm⟩
  · rw [Bool.not_eq_true] at ht
    have hgs : gs = GestureState.possible ∨ gs = GestureState.recognizing := by
      cases gs
      · exact Or.inl rfl
      · exact Or.inr rfl
      · exact absurd rfl hnc
      · exact absurd ht (by decide)
    have hstep : step (fun _ => some g) ⟨gs, [⟨b, cur⟩], sd, tp, ta, em⟩
        (.moved 0 c) = point_moved (fun _ => some g) ⟨gs, [⟨b, c⟩], sd, tp, ta, em⟩ 0 := by
      simp [step, ht, List.set_cons_zero]
    rw [hstep, point_moved_single_eq g sd b c gs tp ta em hgs hd]
    by_cases hn : gs = GestureState.possible ∧ edgeOffset sd g c < 20
    · rw [if_pos hn]
      refine ⟨⟨rfl, ⟨c, rfl⟩, hnc, hcomp⟩, ?_⟩
      intro h80
      exfalso
      have := hn.2
      omega
    · rw [if_neg hn]
      by_cases hp80 : 80 < edgeOffset sd g c
      · rw [if_pos hp80]
        refine ⟨⟨rfl, ⟨c, rfl⟩, by simp, ?_⟩, fun _ => rfl⟩
        intro _
        refine ⟨axisDisp sd b c, by simp [List.getLast?_concat], ?_⟩
        have hgain := offset_gain_le_axisDisp g sd b c
        omega
      · rw [if_neg hp80]
        refine ⟨⟨rfl, ⟨c, rfl⟩, by simp, by simp⟩, ?_⟩
        intro h80
        exfalso
        omega

/-- The invariant is preserved by any list of compliant moves. -/
theorem c2_run_inv (g : MRect) (σ : StSide) (b : Coords)
    (hb0 : 0 ≤ edgeOffset σ g b) :
    ∀ (moves : List Coords) (s : State), C2Inv σ g b s →
      (∀ c ∈ moves, axisDisp σ b c ≤ 100) →
      C2Inv σ g b (run (fun _ => some g) s (moves.map (fun c => Input.moved 0 c))) := by
  intro moves
  induction moves with
  | nil => intro s h _; exact h
  | cons c rest ih =>
      intro s h hdisp
      rw [List.map_cons, run_cons]
      exact ih _ (c2_step g σ b hb0 s c h (hdisp c (by simp))).1
        fun x hx => hdisp x (by simp [hx])

/-- If some compliant move passes the needed distance, the run ends
Completed. -/
theorem c2_run_completes (g : MRect) (σ : StSide) (b : Coords)
    (hb0 : 0 ≤ edgeOffset σ g b) :
    ∀ (moves : List Coords) (s : State), C2Inv σ g b s →
      (∀ c ∈ moves, axisDisp σ b c ≤ 100) →
      (∃ c ∈ moves, 80 < edgeOffset σ g c - edgeOffset σ g b) →
      (run (fun _ => some g) s (moves.map (fun c => Input.moved 0 c))).gstate
        = .completed := by
  intro moves
  induction moves with
  | nil =>
      intro s _ _ hex
      exact absurd hex (by simp)
  | cons c rest ih =>
      intro s h hdisp hex
      rw [List.map_cons, run_cons]
      obtain ⟨hInv2, hcc⟩ := c2_step g σ b hb0 s c h (hdisp c (by simp))
      by_cases hc : 80 < edgeOffset σ g c - edgeOffset σ g b
      · have hdone := hcc hc
        rw [run_moved_frozen _ rest _ (by rw [hdone]; rfl)]
        exact hdone
      · rcases hex with ⟨x, hx, hxp⟩
        rcases List.mem_cons.mp hx with hx | hx
        · exact absurd (hx ▸ hxp) hc
        · exact ih _ hInv2 (fun y hy => hdisp y (by simp [hy])) ⟨x, hx, hxp⟩

end EdgeDrag

/-- C2 counterexample: Left edge of a 1000x1000 monitor at x=0.
First stream: a touch begins at the edge (offset 0 < 20) and moves
inward exactly 80px — "at least 80px", never displacing more than
100px — yet the gesture ends in Recognizing, not Completed:
passes_distance_needed requires the current coordinate strictly past
monitor.x + 80.  Second stream: a touch begins at offset 19 and moves
to x=81 then x=100 (displacement reaches 81 ≥ 80, never above 100);
the gesture completes on the first move, but the last emission before
Completed is 62, below the claimed 80. -/
theorem C2_counterexample :
    (EdgeDrag.edgeOffset .left ⟨0, 0, 1000, 1000⟩ ⟨0, 500⟩ < 20 ∧
      (80 : Int) ≤ EdgeDrag.axisDisp .left ⟨0, 500⟩ ⟨80, 500⟩ ∧
      EdgeDrag.axisDisp .left ⟨0, 500⟩ ⟨80, 500⟩ ≤ 100 ∧
      (EdgeDrag.run (fun _ => some ⟨0, 0, 1000, 1000⟩) (EdgeDrag.init .left)
          [.began ⟨0, 500⟩, .moved 0 ⟨80, 500⟩]).gstate = .recognizing ∧
      (EdgeDrag.run (fun _ => some ⟨0, 0, 1000, 1000⟩) (EdgeDrag.init .left)
          [.began ⟨0, 500⟩, .moved 0 ⟨80, 500⟩]).gstate ≠ .completed) ∧
    (EdgeDrag.edgeOffset .left ⟨0, 0, 1000, 1000⟩ ⟨19, 500⟩ < 20 ∧
      (80 : Int) ≤ EdgeDrag.axisDisp .left ⟨19, 500⟩ ⟨100, 500⟩ ∧
      EdgeDrag.axisDisp .left ⟨19, 500⟩ ⟨100, 500⟩ ≤ 100 ∧
      (EdgeDrag.run (fun _ => some ⟨0, 0, 1000, 1000⟩) (EdgeDrag.init .left)
          [.began ⟨19, 500⟩, .moved 0 ⟨81, 500⟩, .moved 0 ⟨100, 500⟩]).gstate
        = .completed ∧
      (EdgeDrag.run (fun _ => some ⟨0, 0, 1000, 1000⟩) (EdgeDrag.init .left)
          [.began ⟨19, 500⟩, .moved 0 ⟨81, 500⟩, .moved 0 ⟨100, 500⟩]).emissions
        = [62] ∧
      ¬(80 : Int) ≤ 62) := by
  decide

/-- C2 (amended): a single touch beginning within the 20px edge band
(at a non-negative offset from the edge), whose per-axis displacement
never exceeds 100px, and which on some move has gained strictly more
than 80px of edge offset since begin (equivalently: is past the
monitor's edge by more than 80px), completes the gesture; at least one
progress emission precedes the Completed transition, and the last
emission exceeds 80 minus the begin offset from the edge. -/
theorem C2_amended (g : EdgeDrag.MRect) (σ : EdgeDrag.StSide) (b : Coords)
    (moves : List Coords)
    (hb0 : 0 ≤ EdgeDrag.edgeOffset σ g b)
    (hb : EdgeDrag.edgeOffset σ g b < 20)
    (hdisp : ∀ c ∈ moves, EdgeDrag.axisDisp σ b c ≤ 100)
    (hin : ∃ c ∈ moves, 80 < EdgeDrag.edgeOffset σ g c - EdgeDrag.edgeOffset σ g b) :
    (EdgeDrag.run (fun _ => some g) (EdgeDrag.init σ)
        (.began b :: moves.map (fun c => .moved 0 c))).gstate = .completed ∧
    (EdgeDrag.run (fun _ => some g) (EdgeDrag.init σ)
        (.began b :: moves.map (fun c => .moved 0 c))).emissions ≠ [] ∧
    ∀ l, (EdgeDrag.run (fun _ => some g) (EdgeDrag.init σ)
        (.began b :: moves.map (fun c => .moved 0 c))).emissions.getLast? = some l →
      80 - EdgeDrag.edgeOffset σ g b < l := by
  have hs1 : EdgeDrag.step (fun _ => some g) (EdgeDrag.init σ) (.began b) =
      ⟨.possible, [⟨b, b⟩], σ, 0, true, []⟩ := by
    simp [EdgeDrag.step, EdgeDrag.init, EdgeDrag.point_began,
      EdgeDrag.is_near_iff_offset, hb, GestureState.isTerminal]
  have hrun : EdgeDrag.run (fun _ => some g) (EdgeDrag.init σ)
      (.began b :: moves.map (fun c => .moved 0 c)) =
      EdgeDrag.run (fun _ => some g) ⟨.possible, [⟨b, b⟩], σ, 0, true, []⟩
        (moves.map (fun c => .moved 0 c)) := by
    rw [EdgeDrag.run_cons, hs1]
  have hInv1 : EdgeDrag.C2Inv σ g b ⟨.possible, [⟨b, b⟩], σ, 0, true, []⟩ := by
    refine ⟨rfl, ⟨b, rfl⟩, ?_, ?_⟩ <;> simp
  have hfin := EdgeDrag.c2_run_inv g σ b hb0 moves _ hInv1 hdisp
  have hcompl := EdgeDrag.c2_run_completes g σ b hb0 moves _ hInv1 hdisp hin
  rw [hrun]
  refine ⟨hcompl, ?_, ?_⟩
  · obtain ⟨l, hl, _⟩ := hfin.2.2.2 hcompl
    intro hempty
    rw [hempty] at hl
    simp at hl
  · intro l hl
    obtain ⟨l2, hl2, hbound⟩ := hfin.2.2.2 hcompl
    rw [hl] at hl2
    injection hl2 with h
    omega

/-- C2 witness: Left edge, begin at offset 10, one move to offset 95
(displacement 85 ≤ 100, gain 85 > 80): completes with a final emission
of 85 > 70. -/
theorem C2_witness :
    (EdgeDrag.run (fun _ => some ⟨0, 0, 1000, 1000⟩) (EdgeDrag.init .left)
        (.began ⟨10, 500⟩ ::
          [(⟨95, 500⟩ : Coords)].map (fun c => .moved 0 c))).gstate = .completed ∧
    (EdgeDrag.run (fun _ => some ⟨0, 0, 1000, 1000⟩) (EdgeDrag.init .left)
        (.began ⟨10, 500⟩ ::
          [(⟨95, 500⟩ : Coords)].map (fun c => .moved 0 c))).emissions ≠ [] ∧
    ∀ l, (EdgeDrag.run (fun _ => some ⟨0, 0, 1000, 1000⟩) (EdgeDrag.init .left)
        (.began ⟨10, 500⟩ ::
          [(⟨95, 500⟩ : Coords)].map (fun c => .moved 0 c))).emissions.getLast?
          = some l →
      80 - EdgeDrag.edgeOffset .left ⟨0, 0, 1000, 1000⟩ ⟨10, 500⟩ < l :=
  C2_amended ⟨0, 0, 1000, 1000⟩ .left ⟨10, 500⟩ [⟨95, 500⟩] (by decide)
    (by decide) (by decide) (by decide)
